import Mathlib

/-!
Shallow embedding of the tcp-http-server repository (Go) for verification.

Byte sequences from the wire are modelled as `List Char`, each `Char`
standing for one byte (all inputs of interest are ASCII).  Go maps are
modelled as association lists with first-occurrence lookup; `m[k] = v`
updates the key in place, preserving uniqueness of keys.
-/

namespace TcpHttp

/-- Index of the first occurrence of the two-byte separator CRLF,
mirroring Go `bytes.Index(b, []byte("\r\n"))` (`none` = not found). -/
def findCRLF : List Char → Option Nat
  | [] => none
  | [_] => none
  | a :: b :: rest =>
    if a = '\r' ∧ b = '\n' then some 0
    else (findCRLF (b :: rest)).map (· + 1)

/-- Split at every occurrence of a one-byte separator, mirroring Go
`bytes.Split` / `strings.Split`: the empty input yields one empty field. -/
def splitChar (c : Char) : List Char → List (List Char)
  | [] => [[]]
  | x :: xs =>
    match splitChar c xs with
    | [] => [[x]]
    | y :: ys => if x = c then [] :: y :: ys else (x :: y) :: ys

/-- Split at the first occurrence of a byte, mirroring Go `strings.Cut` /
`strings.SplitN(s, sep, 2)` with a one-byte separator: `none` when the
separator does not occur. -/
def cutFirst (c : Char) : List Char → Option (List Char × List Char)
  | [] => none
  | x :: xs =>
    if x = c then some ([], xs)
    else (cutFirst c xs).map (fun p => (x :: p.1, p.2))

/-- ASCII lower-casing of one byte, as Go `strings.ToLower` acts on the
ASCII range used by this server. -/
def charLower (c : Char) : Char :=
  if 65 ≤ c.toNat ∧ c.toNat ≤ 90 then Char.ofNat (c.toNat + 32) else c

/-- Lower-case a name (Go `strings.ToLower` on ASCII data). -/
def strLower (s : String) : String := String.mk (s.data.map charLower)

/-- Go `unicode.IsSpace` restricted to the ASCII bytes it recognizes,
as used by `bytes.TrimSpace`. -/
def isSpaceGo (c : Char) : Bool :=
  c.toNat = 32 ∨ c.toNat = 9 ∨ c.toNat = 10 ∨ c.toNat = 11 ∨ c.toNat = 12 ∨ c.toNat = 13

/-- Go `bytes.TrimSpace`: strip leading and trailing whitespace bytes. -/
def trimGo (l : List Char) : List Char :=
  (((l.dropWhile isSpaceGo).reverse).dropWhile isSpaceGo).reverse

/-- Decimal digit test (Go `'0' <= c && c <= '9'`). -/
def isDigitGo (c : Char) : Bool := 48 ≤ c.toNat ∧ c.toNat ≤ 57

/-- Value of a decimal digit list (most significant first). -/
def decVal (l : List Char) : Nat := l.foldl (fun a c => a * 10 + (c.toNat - 48)) 0

/-- Digit-run part of Go `strconv.Atoi` after the optional sign: a
nonempty run of decimal digits, nothing else; out-of-int64-range values
are an error (`none`). -/
def atoiDigits (sgn : Int) (ds : List Char) : Option Int :=
  if ds = [] then none
  else if ds.all isDigitGo then
    if sgn * (decVal ds : Int) < -(2 ^ 63) ∨ sgn * (decVal ds : Int) > 2 ^ 63 - 1 then none
    else some (sgn * (decVal ds : Int))
  else none

/-- Go `strconv.Atoi`: an optional sign, then the digit run. -/
def atoi (l : List Char) : Option Int :=
  match l with
  | [] => none
  | '+' :: t => atoiDigits 1 t
  | '-' :: t => atoiDigits (-1) t
  | t => atoiDigits 1 t

/-- Hex digit test used by `strconv.ParseUint(s, 16, 64)`. -/
def isHexGo (c : Char) : Bool :=
  (48 ≤ c.toNat ∧ c.toNat ≤ 57) ∨ (97 ≤ c.toNat ∧ c.toNat ≤ 102) ∨
    (65 ≤ c.toNat ∧ c.toNat ≤ 70)

/-- Value of one hex digit. -/
def hexDigitVal (c : Char) : Nat :=
  if 48 ≤ c.toNat ∧ c.toNat ≤ 57 then c.toNat - 48
  else if 97 ≤ c.toNat ∧ c.toNat ≤ 102 then c.toNat - 87
  else c.toNat - 55

/-- Go `strconv.ParseUint(s, 16, 64)`: a nonempty run of hex digits with
no sign or prefix; values ≥ 2^64 are an error. -/
def parseHexU64 (l : List Char) : Option Nat :=
  if l = [] then none
  else if l.all isHexGo then
    let v := l.foldl (fun a c => a * 16 + hexDigitVal c) 0
    if v < 2 ^ 64 then some v else none
  else none

/-! ## internal/headers: the header store -/

/-- Error kinds of the request-parsing side, one constructor per `fmt.Errorf`
value of packages `headers` and `request`.  The shipped `request.go` defines
no chunked-body error kind; the errors it can return from chunk parsing are
the raw `strconv` errors, modelled by `strconvError`. -/
inductive PErr where
  | malformedHeader
  | malformedFieldLine
  | malformedHeaderName
  | malformedRequestLine
  | unsupportedVersion
  | reqInErrState
  | strconvError
  deriving DecidableEq, Repr

/-- The header store: a map from lowercased field name to joined value,
modelled as an association list with unique keys (Go `map[string]string`,
with insertion order kept so lookups are deterministic). -/
abbrev Headers := List (String × String)

/-- `headers.NewHeaders()`. -/
def hEmpty : Headers := []

/-- First-occurrence association-list lookup (Go map indexing). -/
def assocFind (m : List (String × String)) (k : String) : Option String :=
  match m with
  | [] => none
  | (k', v) :: rest => if k' = k then some v else assocFind rest k

/-- Update the value stored at a key in place, or append the binding
(Go `m[k] = v`). -/
def assocPut (m : List (String × String)) (k v : String) : List (String × String) :=
  match m with
  | [] => [(k, v)]
  | (k', v') :: rest => if k' = k then (k', v) :: rest else (k', v') :: assocPut rest k v

/-- `(*Headers).Get`: lower-case the query, report value and presence. -/
def hGet (h : Headers) (name : String) : Option String :=
  assocFind h (strLower name)

/-- `(*Headers).Replace`: lower-case the name and overwrite. -/
def hReplace (h : Headers) (name v : String) : Headers :=
  assocPut h (strLower name) v

/-- `(*Headers).Set`: lower-case the name; join to the existing value with
a comma if present, else store. -/
def hSet (h : Headers) (name v : String) : Headers :=
  let n := strLower name
  match assocFind h n with
  | some old => assocPut h n (old ++ "," ++ v)
  | none => assocPut h n v

/-- `headers.isToken`, translated byte-for-byte from the Go source: a byte
is allowed when it falls in the ranges `'A'..'Z'` (65..90), `'a'..'z'`
(97..122) or `'0'..'z'` (48..122), or is one of the bytes of the switch
list `_ : ; . , \ / " ' ? ! ( ) { } [ ] @ < > = - + * # $ & ` | ~ ^ %`
(codes 95 58 59 46 44 92 47 34 39 63 33 40 41 123 125 91 93 64 60 62 61
45 43 42 35 36 38 96 124 126 94 37). -/
def goodTokenChar (ch : Char) : Bool :=
  let c := ch.toNat
  let found := decide ((65 ≤ c ∧ c ≤ 90) ∨ (97 ≤ c ∧ c ≤ 122) ∨ (48 ≤ c ∧ c ≤ 122))
  let found := found ||
    (c ∈ [95, 58, 59, 46, 44, 92, 47, 34, 39, 63, 33, 40, 41, 123, 125, 91,
      93, 64, 60, 62, 61, 45, 43, 42, 35, 36, 38, 96, 124, 126, 94, 37] : Bool)
  found

/-- `headers.isToken`: every byte of the name must be allowed. -/
def isToken (l : List Char) : Bool := l.all goodTokenChar

/-- `headers.parseHeader`: split the field line at the first colon
(`bytes.SplitN(.., ":", 2)`); no colon is `MalformedHeader`; a name with
a leading or trailing space byte is `MalformedFieldLine`; the value is
trimmed of surrounding whitespace. -/
def parseHeader (fieldLine : List Char) : Except PErr (String × String) :=
  match cutFirst ':' fieldLine with
  | none => .error .malformedHeader
  | some (name, rest) =>
    let value := trimGo rest
    if (name.reverse.head? = some ' ') ∨ (name.head? = some ' ') then
      .error .malformedFieldLine
    else .ok (String.mk name, String.mk value)

/-- Loop body of `(*Headers).Parse`, fuelled (the fuel strictly exceeds
the number of iterations, each of which consumes at least two bytes).
Returns the (possibly partially updated) store, the bytes consumed, the
done flag and the error, matching the Go return values plus the mutated
receiver. -/
def hdrsParseLoop : Nat → Headers → List Char → Nat → Headers × Nat × Bool × Option PErr
  | 0, h, _, read => (h, read, false, none)
  | fuel + 1, h, data, read =>
    match findCRLF (data.drop read) with
    | none => (h, read, false, none)
    | some 0 => (h, read + 2, true, none)
    | some idx =>
      match parseHeader ((data.drop read).take idx) with
      | .error e => (h, 0, false, some e)
      | .ok (name, value) =>
        if isToken name.data then
          hdrsParseLoop fuel (hSet h name value) data (read + idx + 2)
        else (h, 0, false, some .malformedHeaderName)

/-- `(*Headers).Parse` on a given store and byte buffer. -/
def hdrsParse (h : Headers) (data : List Char) : Headers × Nat × Bool × Option PErr :=
  hdrsParseLoop (data.length + 1) h data 0

/-! ## internal/request: the incremental request parser -/

/-- `request.RequestLine`. -/
structure RequestLine where
  httpVersion : String
  requestTarget : String
  method : String
  deriving DecidableEq, Repr

/-- `request.parserState`. -/
inductive PState where
  | stInit
  | stHeaders
  | stBody
  | stChunkLength
  | stChunkData
  | stTrailer
  | stDone
  | stError
  deriving DecidableEq, Repr

/-- `request.Request`: the structured request built by the parser. -/
structure Request where
  requestLine : RequestLine
  headers : Headers
  body : List Char
  trailer : Headers
  requestParams : List (String × String)
  pathParams : List (String × String)
  state : PState
  deriving DecidableEq, Repr

/-- `request.newRequest`. -/
def newRequest : Request :=
  { requestLine := { httpVersion := "", requestTarget := "", method := "" }
    headers := hEmpty
    body := []
    trailer := hEmpty
    requestParams := []
    pathParams := []
    state := .stInit }

/-- `(*Request).done`. -/
def Request.isFinished (r : Request) : Bool :=
  r.state = .stDone ∨ r.state = .stError

/-- `request.getInt`: header lookup with `strconv.Atoi`, falling back to
the default on absence or parse failure. -/
def getIntHeader (h : Headers) (name : String) (defaultValue : Int) : Int :=
  match hGet h name with
  | none => defaultValue
  | some valueStr =>
    match atoi valueStr.data with
    | none => defaultValue
    | some v => v

/-- `(*Request).getBodyState`: chunked transfer-encoding wins, else a
positive content-length means a plain body, else done. -/
def getBodyState (r : Request) : PState :=
  let length := getIntHeader r.headers "content-length" 0
  match hGet r.headers "transfer-encoding" with
  | some chunked => if chunked = "chunked" then .stChunkLength
                    else if length > 0 then .stBody else .stDone
  | none => if length > 0 then .stBody else .stDone

/-- `request.parseRequestLine`: find the CRLF (else report zero consumed),
split the start line on single spaces into exactly three parts, split the
third on `/` into `HTTP` and the version, which must be `1.1`. -/
def parseRequestLine (b : List Char) : Except PErr (Option (RequestLine × Nat)) :=
  match findCRLF b with
  | none => .ok none
  | some idx =>
    let startLine := b.take idx
    let read := idx + 2
    let parts := splitChar ' ' startLine
    match parts with
    | [p0, p1, p2] =>
      match splitChar '/' p2 with
      | [h0, h1] =>
        if String.mk h0 ≠ "HTTP" then .error .malformedRequestLine
        else if String.mk h1 ≠ "1.1" then .error .unsupportedVersion
        else .ok (some
          ({ method := String.mk p0, requestTarget := String.mk p1,
             httpVersion := String.mk h1 }, read))
      | _ => .error .malformedRequestLine
    | _ => .error .malformedRequestLine

/-- `request.parseChunkLength`: find the CRLF (else zero consumed, length
`-1`), parse the whole line as an unsigned hexadecimal integer; a parse
failure returns the raw `strconv` error.  The Go `int(length)` conversion
is the identity for every chunk line that fits in an `int64`. -/
def parseChunkLength (b : List Char) : Except PErr (Option (Nat × Int)) :=
  match findCRLF b with
  | none => .ok none
  | some idx =>
    let read := idx + 2
    match parseHexU64 (b.take idx) with
    | none => .error .strconvError
    | some v =>
      let l : Int := if v < 2 ^ 63 then (v : Int) else (v : Int) - 2 ^ 64
      .ok (some (read, l))

/-- `request.parseChunkData`: find the CRLF (else zero consumed), append
everything before it to the body. -/
def parseChunkData (b : List Char) (r : Request) : Nat × Request :=
  match findCRLF b with
  | none => (0, r)
  | some idx => (idx + 2, { r with body := r.body ++ b.take idx })

/-- Loop body of `(*Request).parse`, fuelled (every iteration that recurses
consumes at least one byte, so `data.length + 1` units of fuel always
suffice).  Returns the updated request, the bytes consumed and the error,
matching the Go return values plus the mutated receiver. -/
def parseLoop : Nat → Request → List Char → Nat → Request × Nat × Option PErr
  | 0, r, _, read => (r, read, none)
  | fuel + 1, r, data, read =>
    let currentData := data.drop read
    if currentData.length = 0 then (r, read, none)
    else
      match r.state with
      | .stError => (r, 0, some .reqInErrState)
      | .stInit =>
        match parseRequestLine currentData with
        | .error e => ({ r with state := .stError }, 0, some e)
        | .ok none => (r, read, none)
        | .ok (some (rl, n)) =>
          parseLoop fuel { r with requestLine := rl, state := .stHeaders } data (read + n)
      | .stHeaders =>
        match hdrsParse r.headers currentData with
        | (h', _, _, some e) => ({ r with headers := h', state := .stError }, 0, some e)
        | (h', n, doneFlag, none) =>
          if n = 0 then ({ r with headers := h' }, read, none)
          else
            let r' := { r with headers := h' }
            let r'' := if doneFlag then { r' with state := getBodyState r' } else r'
            parseLoop fuel r'' data (read + n)
      | .stBody =>
        let length := getIntHeader r.headers "content-length" 0
        let remaining : Int := min (length - (r.body.length : Int)) (currentData.length : Int)
        let r' := { r with body := r.body ++ currentData.take remaining.toNat }
        let r'' := if (r'.body.length : Int) = length then { r' with state := .stDone } else r'
        parseLoop fuel r'' data (read + remaining.toNat)
      | .stChunkLength =>
        match parseChunkLength currentData with
        | .error e => ({ r with state := .stError }, 0, some e)
        | .ok none => (r, read, none)
        | .ok (some (n, l)) =>
          let st : PState :=
            if l = 0 then
              if (hGet r.headers "Trailer").isSome then .stTrailer else .stDone
            else .stChunkData
          parseLoop fuel { r with state := st } data (read + n)
      | .stChunkData =>
        match parseChunkData currentData r with
        | (0, _) => (r, read, none)
        | (n, r') => parseLoop fuel { r' with state := .stChunkLength } data (read + n)
      | .stTrailer =>
        match hdrsParse r.trailer currentData with
        | (t', _, _, some e) => ({ r with trailer := t', state := .stError }, 0, some e)
        | (t', n, doneFlag, none) =>
          if n = 0 then ({ r with trailer := t' }, read, none)
          else
            let r' := { r with trailer := t' }
            let r'' := if doneFlag then { r' with state := .stDone } else r'
            parseLoop fuel r'' data (read + n)
      | .stDone => (r, read, none)

/-- `(*Request).parse` on a byte buffer. -/
def Request.parse (r : Request) (data : List Char) : Request × Nat × Option PErr :=
  parseLoop (data.length + 1) r data 0

/-- Index of the first occurrence of a byte (Go `strings.IndexByte`,
`none` standing for `-1`). -/
def firstIdx (c : Char) : List Char → Option Nat
  | [] => none
  | x :: xs => if x = c then some 0 else (firstIdx c xs).map (· + 1)

/-- The per-token loop of `request.parseRequestParameters`: each query
token is cut at the first `=`; with an `=` the pair is stored, without one
a nonempty key is stored with an empty value, and an empty key is
`MalformedRequestLine`.  Storing overwrites an existing key (Go map
assignment). -/
def processQueries : List (List Char) → List (String × String) →
    Except PErr (List (String × String))
  | [], m => .ok m
  | q :: qs, m =>
    match cutFirst '=' q with
    | some (k, v) => processQueries qs (assocPut m (String.mk k) (String.mk v))
    | none =>
      if q ≠ [] then processQueries qs (assocPut m (String.mk q) "")
      else .error .malformedRequestLine

/-- `request.parseRequestParameters`: when the request-target has a `?`
that is not its last byte, split the part after it on `&`, process each
token, and rewrite the target to the part before the `?`. -/
def parseRequestParameters (r : Request) : Except PErr Request :=
  let target := r.requestLine.requestTarget
  match firstIdx '?' target.data with
  | some i =>
    if i < target.data.length - 1 then
      let queries := splitChar '&' (target.data.drop (i + 1))
      match processQueries queries r.requestParams with
      | .error e => .error e
      | .ok m =>
        .ok { r with requestParams := m,
                     requestLine := { r.requestLine with
                       requestTarget := String.mk (target.data.take i) } }
    else .ok r
  | none => .ok r

/-! ## internal/router: the path trie

Handlers are opaque values of a type parameter `H`; the two default
terminal handlers of the Go file are passed in as values, as
`router.GetHandler` returns them by name. -/

/-- The method vocabulary (`methodGET .. methodPATCH`); an unmapped
method string (`m >= methodCount` in Go) is modelled by `Option.none`
at the use sites. -/
inductive Method where
  | mGET
  | mPOST
  | mPUT
  | mDELETE
  | mPATCH
  deriving DecidableEq, Repr

/-- The fixed iteration order of Go's `[methodCount]response.Handler`
array. -/
def methodList : List Method := [.mGET, .mPOST, .mPUT, .mDELETE, .mPATCH]

/-- Registration-time error kinds of the router. -/
inductive RtErr where
  | invalidHttpMethod
  | requestTargetEmpty
  | malformedRequestTarget
  | ambiguousPathParams
  deriving DecidableEq, Repr

/-- `router.routerNode`: token, parameter flag, ordered children and the
per-method handler table. -/
inductive RNode (H : Type) where
  | node (token : String) (isParam : Bool) (children : List (RNode H))
      (handlers : Method → Option H)

/-- The token of a node. -/
def RNode.token {H} : RNode H → String
  | .node t _ _ _ => t

/-- The parameter flag of a node. -/
def RNode.paramFlag {H} : RNode H → Bool
  | .node _ p _ _ => p

/-- The children of a node. -/
def RNode.children {H} : RNode H → List (RNode H)
  | .node _ _ cs _ => cs

/-- The handler table of a node. -/
def RNode.handlers {H} : RNode H → Method → Option H
  | .node _ _ _ hs => hs

/-- `router.newRouterNode`. -/
def newRNode (H : Type) (token : String) (isParam : Bool) : RNode H :=
  .node token isParam [] (fun _ => none)

/-- `(*routerNode).getStaticChild`: first non-parameter child whose token
equals the segment. -/
def getStaticChild {H} (n : RNode H) (token : String) : Option (RNode H) :=
  n.children.find? (fun c => !c.paramFlag && c.token = token)

/-- `(*routerNode).getParamChild`: first parameter child. -/
def getParamChild {H} (n : RNode H) : Option (RNode H) :=
  n.children.find? (fun c => c.paramFlag)

/-- `(*routerNode).matchChild`: a static match wins, else fall back to the
parameter child, reporting which kind was used. -/
def matchChild {H} (n : RNode H) (token : String) : Option (RNode H × Bool) :=
  match getStaticChild n token with
  | some c => some (c, false)
  | none =>
    match getParamChild n with
    | some c => some (c, true)
    | none => none

/-- `router.getTokens`: empty target and non-`/`-rooted target are errors,
`/` is the empty token list, otherwise one leading and at most one
trailing `/` are stripped and the rest is split on `/`. -/
def getTokens (path : String) : Except RtErr (List String) :=
  match path.data with
  | [] => .error .requestTargetEmpty
  | c :: rest =>
    if c ≠ '/' then .error .malformedRequestTarget
    else if rest = [] then .ok []
    else
      let afterTrim :=
        match rest.reverse with
        | '/' :: revBody => revBody.reverse
        | _ => rest
      .ok ((splitChar '/' afterTrim).map String.mk)

/-- `router.getMethod`. -/
def getMethod (s : String) : Option Method :=
  if s = "GET" then some .mGET
  else if s = "POST" then some .mPOST
  else if s = "PUT" then some .mPUT
  else if s = "DELETE" then some .mDELETE
  else if s = "PATCH" then some .mPATCH
  else none

/-- The trie walk of `(*Router).GetHandler`: descend segment by segment
through `matchChild`, writing `path_params[child.token] = segment` each
time the parameter child is taken, and stopping with `none` when no child
matches.  The accumulated parameter map is returned in either case, as Go
mutates `req.PathParams` in place during the walk. -/
def walk {H} : RNode H → List String → List (String × String) →
    Option (RNode H) × List (String × String)
  | n, [], pp => (some n, pp)
  | n, t :: ts, pp =>
    match matchChild n t with
    | none => (none, pp)
    | some (c, usedParam) =>
      walk c ts (if usedParam then assocPut pp c.token t else pp)

/-- `(*routerNode).handlers` scanned for any registered handler, as the
`for _, h := range runner.handlers` loop of `GetHandler` does. -/
def anyHandler {H} (n : RNode H) : Bool :=
  methodList.any (fun m => (n.handlers m).isSome)

/-- `(*Router).GetHandler`, with the two default handlers passed in:
unmapped method, tokenization failure or a failed walk give the not-found
handler; at the terminal node the method's handler is returned when set,
else method-not-allowed when any method has one, else not-found.  The
second component is the request's `PathParams` map after the call. -/
def getHandlerM {H} (root : RNode H) (nfH mnaH : H) (methodStr target : String)
    (pp : List (String × String)) : H × List (String × String) :=
  match getMethod methodStr with
  | none => (nfH, pp)
  | some m =>
    match getTokens target with
    | .error _ => (nfH, pp)
    | .ok toks =>
      match walk root toks pp with
      | (none, pp') => (nfH, pp')
      | (some nd, pp') =>
        match nd.handlers m with
        | some h => (h, pp')
        | none => if anyHandler nd then (mnaH, pp') else (nfH, pp')

/-- Replace the first child accepted by the predicate (the Go walk holds a
pointer into the slice, so updates are in place and order-preserving). -/
def replaceFirstChild {H} (p : RNode H → Bool) (c' : RNode H) :
    List (RNode H) → List (RNode H)
  | [] => []
  | c :: cs => if p c then c' :: cs else c :: replaceFirstChild p c' cs

/-- Set one entry of a node's handler table
(`(*routerNode).setMethodHandler`; the `m >= methodCount` guard cannot
fire for a value of `Method`). -/
def setHandler {H} (n : RNode H) (m : Method) (h : H) : RNode H :=
  .node n.token n.paramFlag n.children
    (fun m' => if m' = m then some h else n.handlers m')

/-- `(*Router).addRoute`: walk the token list from the root, creating or
reusing a parameter child (rejecting a second parameter name as
`AmbiguousPathParams`) or a static child per segment, and set the
method's handler at the terminal node. -/
def addRoute {H} (n : RNode H) : List String → Method → H → Except RtErr (RNode H)
  | [], m, h => .ok (setHandler n m h)
  | tok :: rest, m, h =>
    let isParam := tok.data.length > 0 ∧ tok.data.head? = some ':'
    if isParam then
      match getParamChild n with
      | none =>
        match addRoute (newRNode H (String.mk tok.data.tail) true) rest m h with
        | .error e => .error e
        | .ok child' => .ok (.node n.token n.paramFlag (n.children ++ [child']) n.handlers)
      | some c =>
        if c.token ≠ String.mk tok.data.tail then .error .ambiguousPathParams
        else
          match addRoute c rest m h with
          | .error e => .error e
          | .ok c' => .ok (.node n.token n.paramFlag
              (replaceFirstChild (fun x => x.paramFlag) c' n.children) n.handlers)
    else
      match getStaticChild n tok with
      | none =>
        match addRoute (newRNode H tok false) rest m h with
        | .error e => .error e
        | .ok child' => .ok (.node n.token n.paramFlag (n.children ++ [child']) n.handlers)
      | some c =>
        match addRoute c rest m h with
        | .error e => .error e
        | .ok c' => .ok (.node n.token n.paramFlag
            (replaceFirstChild (fun x => !x.paramFlag && x.token = tok) c' n.children)
            n.handlers)

/-- `router.NewRouter`'s root node. -/
def newRouterRoot (H : Type) : RNode H := newRNode H "/" false

/-! ## internal/response: the response writer

The byte sink is assumed well behaved (the write-all loop then emits the
whole buffer), so each emission is modelled by the bytes it produces;
`WriteResponse` is modelled by the triple of arguments it serializes,
since the header block's line order follows Go map iteration and is
unspecified. -/

/-- `response.ErrUnrecognizedStatusCode` (the only writer error reachable
in this pure model). -/
inductive RespErr where
  | unrecognizedStatusCode
  deriving DecidableEq, Repr

/-- `(*Writer).WriteStatusLine`: the closed status-code table, emitting
the exact line, with unknown codes rejected before anything is written. -/
def writeStatusLine (statusCode : Nat) : Except RespErr String :=
  if statusCode = 200 then .ok "HTTP/1.1 200 OK\r\n"
  else if statusCode = 201 then .ok "HTTP/1.1 201 Created\r\n"
  else if statusCode = 206 then .ok "HTTP/1.1 206 Partial Content\r\n"
  else if statusCode = 400 then .ok "HTTP/1.1 400 Bad Request\r\n"
  else if statusCode = 404 then .ok "HTTP/1.1 404 Not Found\r\n"
  else if statusCode = 405 then .ok "HTTP/1.1 405 Method Not Allowed\r\n"
  else if statusCode = 416 then .ok "HTTP/1.1 416 Range Not Satisfiable\r\n"
  else if statusCode = 500 then .ok "HTTP/1.1 500 Internal Server Error\r\n"
  else if statusCode = 501 then .ok "HTTP/1.1 501 Not Implemented\r\n"
  else if statusCode = 505 then .ok "HTTP/1.1 505 Http Version Not Supported\r\n"
  else .error .unrecognizedStatusCode

/-- `response.GetDefaultHeaders`. -/
def getDefaultHeaders (contentLen : Int) : Headers :=
  hSet (hSet (hSet hEmpty "Content-Length" (toString contentLen)) "Connection" "close")
    "Content-Type" "text/html"

/-- `response.parseRange`: require the `bytes=` lead, split the rest at
the first `-` (no `-` at all fails), a nonempty decimal start, and an
optional decimal end; returns (start, end, end-provided). -/
def parseRange (s : String) : Option (Int × Int × Bool) :=
  if s.data.take 6 = ("bytes=").data then
    match cutFirst '-' (s.data.drop 6) with
    | none => none
    | some (p0, p1) =>
      if p0 = [] then none
      else
        match atoi p0 with
        | none => none
        | some st =>
          if p1 = [] then some (st, 0, false)
          else
            match atoi p1 with
            | none => none
            | some en => some (st, en, true)
  else none

/-- Errors of `response.loadRange`: the two range errors plus seek/read
failures of the source (mapped to 500 by the caller). -/
inductive LoadErr where
  | rangeOutOfBounds
  | rangeEndLtStart
  | seekFailed
  | readFailed
  deriving DecidableEq, Repr

/-- `response.loadRange` over a pure byte source `f` standing for the
seekable: a non-positive size or an out-of-bounds start is
`ErrRangeOutOfBounds`; with an end provided, `end < start` is
`ErrRangeEndLtStart` and an end past the source is clamped to
`contentSize - 1`; then `(end - start + 1)` bytes are read from offset
`start` (a short source fails the `io.ReadFull`, a negative offset fails
the `Seek`). -/
def loadRange (f : List Char) (contentSize start endPos : Int) (endProvided : Bool) :
    Except LoadErr (List Char × Int) :=
  if contentSize ≤ 0 then .error .rangeOutOfBounds
  else if start ≥ contentSize then .error .rangeOutOfBounds
  else if endProvided ∧ endPos < start then .error .rangeEndLtStart
  else
    let usedEnd : Int :=
      if ¬endProvided then contentSize - 1
      else if endPos ≥ contentSize then contentSize - 1 else endPos
    let n : Int := usedEnd - start + 1
    if start < 0 then .error .seekFailed
    else if f.length < start.toNat + n.toNat then .error .readFailed
    else .ok ((f.drop start.toNat).take n.toNat, usedEnd)

/-- `(*Writer).WritePartialContentResponse`, modelled down to the
`WriteResponse` call: the status code, the final header store and the body
bytes handed to the serializer. -/
def writePartialContent (f : List Char) (contentSize : Int) (contentType : String)
    (reqHeaders : Headers) : Nat × Headers × List Char :=
  let h := hSet (hReplace (getDefaultHeaders 0) "Content-Type" contentType)
    "Accept-Ranges" "bytes"
  match hGet reqHeaders "Range" with
  | some rangeStr =>
    match parseRange rangeStr with
    | none =>
      let body := "invalid range".data
      (400, hReplace (hReplace h "Content-Type" "text/plain")
        "Content-Length" (toString body.length), body)
    | some (start, endPos, endProvided) =>
      match loadRange f contentSize start endPos endProvided with
      | .error e =>
        if e = .rangeEndLtStart ∨ e = .rangeOutOfBounds then
          let body := "invalid range provided".data
          (416, hSet (hReplace (hReplace h "Content-Type" "text/plain")
            "Content-Length" (toString body.length))
            "Content-Range" ("bytes */" ++ toString contentSize), body)
        else
          let body := "error loading range".data
          (500, hReplace (hReplace h "Content-Type" "text/plain")
            "Content-Length" (toString body.length), body)
      | .ok (body, usedEnd) =>
        (206, hSet (hReplace h "Content-Length" (toString body.length))
          "Content-Range" ("bytes " ++ toString start ++ "-" ++ toString usedEnd ++
            "/" ++ toString contentSize), body)
  | none =>
    (200, hReplace h "Content-Length" (toString f.length), f)

/-- The RFC 7230 token characters as the specification states them:
ALPHA, DIGIT, and the fifteen punctuation bytes with codes 33 35 36 37
38 39 42 43 45 46 94 95 96 124 126.  This definition follows the wording
of the specification, for comparison with the source's `isToken`. -/
def rfc7230TokenChar (ch : Char) : Bool :=
  let c := ch.toNat
  decide ((65 ≤ c ∧ c ≤ 90) ∨ (97 ≤ c ∧ c ≤ 122) ∨ (48 ≤ c ∧ c ≤ 57)) ||
    (c ∈ [33, 35, 36, 37, 38, 39, 42, 43, 45, 46, 94, 95, 96, 124, 126] : Bool)

/-- Stored-name measurement: every byte of every stored field name lies
in the printable range 33..126. -/
def namesOkB (h : Headers) : Bool :=
  h.all (fun p => p.1.data.all (fun c => decide (33 ≤ c.toNat ∧ c.toNat ≤ 126)))

/-- A small concrete trie for instantiating the router theorems: the root
holds a parameter child named `id` registered before a static child
`me`, as `addRoute` would produce for `GET /:id` then `GET /me`. -/
def sampleParamNode : RNode Nat := .node "id" true [] (fun _ => none)

/-- The static sibling of `sampleParamNode`. -/
def sampleStaticNode : RNode Nat := .node "me" false [] (fun _ => none)

/-- Root of the sample trie (parameter child first). -/
def sampleRoot : RNode Nat :=
  .node "/" false [sampleParamNode, sampleStaticNode] (fun _ => none)

/-- A one-route trie, `GET /a` registered with handler value 2, built
through `addRoute` itself. -/
def oneRouteTrie : RNode Nat :=
  match addRoute (newRouterRoot Nat) ["a"] Method.mGET 2 with
  | .ok t => t
  | .error _ => newRouterRoot Nat

/-! ## Theorems -/

/-- Claim C1: the specification requires the ChunkData state to append
exactly `chunk_length` bytes and then demand a literal CRLF, raising
MalformedChunkedBody otherwise.  The shipped `parseChunkData` never sees
the chunk length: it appends everything up to the next CRLF.  A chunk
declared of length 2 whose data is the four bytes `abcd` therefore parses
without error, leaving body `abcd` and state Done, where the claim (and
the package's own tests) demand a malformed-chunked-body failure. -/
theorem c1_chunk_data_ignores_declared_length :
    (Request.parse newRequest
      ("POST /s HTTP/1.1\r\nhost: x\r\ntransfer-encoding: chunked\r\n\r\n2\r\nabcd\r\n0\r\n\r\n").data).2.2
        = none ∧
    (Request.parse newRequest
      ("POST /s HTTP/1.1\r\nhost: x\r\ntransfer-encoding: chunked\r\n\r\n2\r\nabcd\r\n0\r\n\r\n").data).1.body
        = ("abcd").data ∧
    (Request.parse newRequest
      ("POST /s HTTP/1.1\r\nhost: x\r\ntransfer-encoding: chunked\r\n\r\n2\r\nabcd\r\n0\r\n\r\n").data).1.state
        = PState.stDone := by
  refine ⟨rfl, rfl, rfl⟩

/-- Claim C2: the specification says the ChunkLength state parses only the
prefix before any semicolon (chunk extensions are ignored) and reports
failures as MalformedChunkedBody.  The shipped `parseChunkLength` feeds
the whole line to the hexadecimal parser, so a size line with an
extension fails - and with the raw `strconv` error, since `request.go`
defines no chunked-body error kind at all - even though the prefix before
the semicolon is a perfectly valid hexadecimal length. -/
theorem c2_chunk_extension_is_rejected :
    parseChunkLength ("3;ext=1\r\n").data = .error PErr.strconvError ∧
    parseHexU64 ("3").data = some 3 := by
  exact ⟨rfl, rfl⟩

/-- Claim C9: router lookup mutates `path_params` during the walk, not
only on success.  With only `GET /users/:id/posts` registered, the
request `GET /users/42/zzz` matches the parameter child at depth two and
then fails at depth three, so the not-found handler (here the value `0`)
is returned, yet `path_params` already holds the capture `id = 42`. -/
theorem c9_param_capture_persists_on_not_found :
    (addRoute (newRouterRoot Nat) ["users", ":id", "posts"] Method.mGET 7).map
      (fun t => getHandlerM t 0 1 "GET" "/users/42/zzz" []) =
      .ok (0, [("id", "42")]) := by
  rfl

/-- Claim C10, counterexample: the claim says that once the state is
Error every parse call returns the request-in-error-state error, for
every input buffer.  A parse call on an empty buffer leaves through the
no-data check before the state switch and returns no error at all. -/
theorem c10_error_state_empty_buffer_returns_no_error :
    Request.parse { newRequest with state := PState.stError } [] =
      ({ newRequest with state := PState.stError }, 0, none) := by
  rfl

/-- Claim C10 as amended: Done and Error are terminal and sticky.  In
state Done every parse call consumes zero bytes, succeeds and leaves the
request unchanged; in state Error every parse call on a nonempty buffer
consumes zero bytes and returns the request-in-error-state error, while
a call on an empty buffer consumes zero bytes and returns no error; in
all these cases the state (and the whole request) is unchanged. -/
theorem c10_done_and_error_are_sticky (r : Request) (data : List Char) :
    (r.state = PState.stDone → r.parse data = (r, 0, none)) ∧
    (r.state = PState.stError → data ≠ [] → r.parse data = (r, 0, some PErr.reqInErrState)) ∧
    (r.state = PState.stError → data = [] → r.parse data = (r, 0, none)) := by
  refine ⟨fun hs => ?_, fun hs hne => ?_, fun hs he => ?_⟩
  · cases data with
    | nil => simp [Request.parse, parseLoop]
    | cons a as => simp [Request.parse, parseLoop, hs]
  · cases data with
    | nil => exact absurd rfl hne
    | cons a as => simp [Request.parse, parseLoop, hs]
  · subst he
    simp [Request.parse, parseLoop]

/-- Witness for c10_done_and_error_are_sticky at a concrete finished
request and a nonempty buffer. -/
theorem c10_done_and_error_are_sticky_witness :
    Request.parse { newRequest with state := PState.stDone } ("ab").data =
      ({ newRequest with state := PState.stDone }, 0, none) :=
  (c10_done_and_error_are_sticky { newRequest with state := PState.stDone } ("ab").data).1 rfl

/-- Claim C7, counterexample: the claim lists the reason phrase of code
505 as `HTTP Version Not Supported`, but the writer emits
`Http Version Not Supported`. -/
theorem c7_505_reason_phrase_differs :
    writeStatusLine 505 = .ok "HTTP/1.1 505 Http Version Not Supported\r\n" ∧
    ("HTTP/1.1 505 Http Version Not Supported\r\n" : String) ≠
      "HTTP/1.1 505 HTTP Version Not Supported\r\n" := by
  exact ⟨rfl, by decide⟩

/-- Claim C7 as amended: for every status code of the closed table the
writer emits exactly `HTTP/1.1 <code> <reason>\r\n` with the table's
reason phrase, where the phrase for 505 is `Http Version Not Supported`
(not `HTTP Version Not Supported`); every code outside the table writes
nothing and yields UnrecognizedStatusCode. -/
theorem c7_status_line_table (code : Nat)
    (hc : code ∉ ([200, 201, 206, 400, 404, 405, 416, 500, 501, 505] : List Nat)) :
    writeStatusLine 200 = .ok "HTTP/1.1 200 OK\r\n" ∧
    writeStatusLine 201 = .ok "HTTP/1.1 201 Created\r\n" ∧
    writeStatusLine 206 = .ok "HTTP/1.1 206 Partial Content\r\n" ∧
    writeStatusLine 400 = .ok "HTTP/1.1 400 Bad Request\r\n" ∧
    writeStatusLine 404 = .ok "HTTP/1.1 404 Not Found\r\n" ∧
    writeStatusLine 405 = .ok "HTTP/1.1 405 Method Not Allowed\r\n" ∧
    writeStatusLine 416 = .ok "HTTP/1.1 416 Range Not Satisfiable\r\n" ∧
    writeStatusLine 500 = .ok "HTTP/1.1 500 Internal Server Error\r\n" ∧
    writeStatusLine 501 = .ok "HTTP/1.1 501 Not Implemented\r\n" ∧
    writeStatusLine 505 = .ok "HTTP/1.1 505 Http Version Not Supported\r\n" ∧
    writeStatusLine code = .error RespErr.unrecognizedStatusCode := by
  simp only [List.mem_cons, List.not_mem_nil, or_false, not_or] at hc
  obtain ⟨h200, h201, h206, h400, h404, h405, h416, h500, h501, h505⟩ := hc
  refine ⟨rfl, rfl, rfl, rfl, rfl, rfl, rfl, rfl, rfl, rfl, ?_⟩
  simp [writeStatusLine, h200, h201, h206, h400, h404, h405, h416, h500, h501, h505]

/-- Witness for c7_status_line_table at the unknown code 999. -/
theorem c7_status_line_table_witness :
    writeStatusLine 200 = .ok "HTTP/1.1 200 OK\r\n" ∧
    writeStatusLine 999 = .error RespErr.unrecognizedStatusCode :=
  ⟨(c7_status_line_table 999 (by decide)).1,
   (c7_status_line_table 999 (by decide)).2.2.2.2.2.2.2.2.2.2⟩

/-- Claim C5, counterexample: the claim covers every request-target that
contains a question mark, but the code skips query extraction entirely
when the question mark is the last byte: the target `/a?` contains `?`
at index 2 yet is returned unchanged, with no parameters stored, no
error, and no rewrite of the target to `/a`. -/
theorem c5_trailing_question_mark_skipped :
    parseRequestParameters { newRequest with requestLine :=
        { newRequest.requestLine with requestTarget := "/a?" } } =
      .ok { newRequest with requestLine :=
        { newRequest.requestLine with requestTarget := "/a?" } } ∧
    firstIdx '?' ("/a?").data = some 2 := by
  exact ⟨rfl, rfl⟩

/-- Claim C5 as amended: when the request-target contains a `?` that is
not its last byte, everything after the first `?` is split on `&` and
processed token by token - a token with an `=` stores the pair split at
the first `=`, a token without `=` but with a nonempty key stores the
key with an empty value, and an empty key fails with
MalformedRequestLine - and on success the target is rewritten to the
portion before the `?`.  A target whose only `?` is the final byte is
left entirely alone (see the counterexample). -/
theorem c5_query_extraction (r : Request) (i : Nat)
    (hi : firstIdx '?' r.requestLine.requestTarget.data = some i)
    (hlt : i < r.requestLine.requestTarget.data.length - 1) :
    parseRequestParameters r =
      (match processQueries
          (splitChar '&' (r.requestLine.requestTarget.data.drop (i + 1)))
          r.requestParams with
       | .error e => .error e
       | .ok m => .ok { r with requestParams := m, requestLine := { r.requestLine with requestTarget := String.mk (r.requestLine.requestTarget.data.take i) } }) ∧
    (∀ (qs : List (List Char)) (m : List (String × String)) (q k v : List Char),
      (cutFirst '=' q = some (k, v) →
        processQueries (q :: qs) m =
          processQueries qs (assocPut m (String.mk k) (String.mk v))) ∧
      (cutFirst '=' q = none → q ≠ [] →
        processQueries (q :: qs) m = processQueries qs (assocPut m (String.mk q) "")) ∧
      (q = [] → processQueries (q :: qs) m = .error PErr.malformedRequestLine)) := by
  constructor
  · simp only [parseRequestParameters, hi]
    rw [if_pos hlt]
  · intro qs m q k v
    refine ⟨fun hc => ?_, fun hc hne => ?_, fun he => ?_⟩
    · simp [processQueries, hc]
    · simp [processQueries, hc, hne]
    · subst he
      simp [processQueries, cutFirst]

/-- Witness for c5_query_extraction on a concrete target with one
key-value pair and one bare key. -/
theorem c5_query_extraction_witness :
    parseRequestParameters { newRequest with requestLine :=
        { newRequest.requestLine with requestTarget := "/c?a=1&b" } } =
      .ok { newRequest with requestParams := [("a", "1"), ("b", "")], requestLine := { newRequest.requestLine with requestTarget := "/c" } } := by
  have h := (c5_query_extraction { newRequest with requestLine :=
    { newRequest.requestLine with requestTarget := "/c?a=1&b" } } 2 rfl (by decide)).1
  rw [h]
  rfl

/-- One byte accepted by the source's token test lies exactly in the
printable range 33..126. -/
theorem goodTokenChar_iff (c : Char) :
    goodTokenChar c = true ↔ 33 ≤ c.toNat ∧ c.toNat ≤ 126 := by
  simp only [goodTokenChar, Bool.or_eq_true, decide_eq_true_eq, List.mem_cons,
    List.not_mem_nil, or_false]
  constructor
  · rintro (h | h) <;> omega
  · intro h
    omega

/-- Lower-casing keeps a byte inside the printable range 33..126. -/
theorem charLower_range (c : Char) (h1 : 33 ≤ c.toNat) (h2 : c.toNat ≤ 126) :
    33 ≤ (charLower c).toNat ∧ (charLower c).toNat ≤ 126 := by
  unfold charLower
  split_ifs with h
  · have hv : (c.toNat + 32).isValidChar := Or.inl (by omega)
    have he : (Char.ofNat (c.toNat + 32)).toNat = c.toNat + 32 := by
      unfold Char.ofNat
      rw [dif_pos hv]
      unfold Char.ofNatAux
      simp [Char.toNat, UInt32.toNat, BitVec.toNat_ofNatLt]
    omega
  · omega

/-- Membership after a map update: the binding is for the updated key or
was already present. -/
theorem mem_assocPut {m : List (String × String)} {k v : String}
    {p : String × String} (hp : p ∈ assocPut m k v) : p.1 = k ∨ p ∈ m := by
  induction m with
  | nil =>
    simp [assocPut] at hp
    subst hp
    exact Or.inl rfl
  | cons hd tl ih =>
    simp only [assocPut] at hp
    split_ifs at hp with hk
    · rcases List.mem_cons.mp hp with h | h
      · subst h
        exact Or.inl hk
      · exact Or.inr (List.mem_cons_of_mem _ h)
    · rcases List.mem_cons.mp hp with h | h
      · subst h
        exact Or.inr (List.mem_cons_self _ _)
      · rcases ih h with h' | h'
        · exact Or.inl h'
        · exact Or.inr (List.mem_cons_of_mem _ h')

/-- Membership after a header `Set`: the binding is for the lowercased
name or was already present. -/
theorem mem_hSet {h : Headers} {name v : String} {p : String × String}
    (hp : p ∈ hSet h name v) : p.1 = strLower name ∨ p ∈ h := by
  unfold hSet at hp
  rcases hfind : assocFind h (strLower name) with _ | old <;> simp [hfind] at hp <;>
    exact mem_assocPut hp

/-- Names in the printable range stay there after lower-casing. -/
theorem strLower_range {s : String}
    (hs : ∀ c ∈ s.data, 33 ≤ c.toNat ∧ c.toNat ≤ 126) :
    ∀ c ∈ (strLower s).data, 33 ≤ c.toNat ∧ c.toNat ≤ 126 := by
  intro c hc
  simp only [strLower, List.mem_map] at hc
  obtain ⟨c0, hc0, rfl⟩ := hc
  exact charLower_range c0 (hs c0 hc0).1 (hs c0 hc0).2

/-- The header-parse loop preserves the printable-names invariant. -/
theorem hdrsParseLoop_namesOk (fuel : Nat) :
    ∀ (h : Headers) (data : List Char) (read : Nat), namesOkB h = true →
      namesOkB (hdrsParseLoop fuel h data read).1 = true := by
  induction fuel with
  | zero => intro h data read hh; exact hh
  | succ fuel ih =>
    intro h data read hh
    simp only [hdrsParseLoop]
    split
    · exact hh
    · exact hh
    · split
      · exact hh
      · next name value hph =>
        split_ifs with ht
        · apply ih
          simp only [namesOkB, List.all_eq_true] at hh ⊢
          intro p hp
          rcases mem_hSet hp with h1 | h1
          · simp only [List.all_eq_true, decide_eq_true_eq]
            intro c hc
            have hnm : ∀ c' ∈ name.data, 33 ≤ c'.toNat ∧ c'.toNat ≤ 126 := by
              intro c' hc'
              have hg := (List.all_eq_true.mp ht) c' hc'
              exact (goodTokenChar_iff c').mp (by simpa using hg)
            rw [h1] at hc
            exact strLower_range hnm c hc
          · exact hh p h1
        · exact hh

/-- Claim C8 as amended: the source's `isToken` accepts exactly the
bytes 33..126 (every printable ASCII byte except space), a strict
superset of the RFC 7230 token grammar, and wire parsing preserves the
invariant that every stored field name consists of such bytes only;
names containing a byte outside that range are rejected
(MalformedHeaderName, or MalformedFieldLine for a leading or trailing
space) and not stored. -/
theorem c8_stored_names_printable (l : List Char) (h : Headers) (data : List Char)
    (hinv : namesOkB h = true) :
    isToken l = l.all (fun c => decide (33 ≤ c.toNat ∧ c.toNat ≤ 126)) ∧
    namesOkB (hdrsParse h data).1 = true := by
  constructor
  · unfold isToken
    induction l with
    | nil => rfl
    | cons c cs ihl =>
      simp only [List.all_cons, ihl]
      congr 1
      rcases hg : goodTokenChar c with _ | _
      · have : ¬(33 ≤ c.toNat ∧ c.toNat ≤ 126) := fun hc =>
          by simp [(goodTokenChar_iff c).mpr hc] at hg
        simp [this]
      · simp [(goodTokenChar_iff c).mp hg]
  · exact hdrsParseLoop_namesOk _ h data 0 hinv

/-- Witness for c8_stored_names_printable on a concrete token and a
concrete header block. -/
theorem c8_stored_names_printable_witness :
    isToken ("User-Agent").data =
      (("User-Agent").data.all (fun c => decide (33 ≤ c.toNat ∧ c.toNat ≤ 126))) ∧
    namesOkB (hdrsParse hEmpty ("Host: x\r\n\r\n").data).1 = true :=
  c8_stored_names_printable ("User-Agent").data hEmpty ("Host: x\r\n\r\n").data (by decide)

/-- Claim C8, counterexample: the field line `a(: v` is accepted and
stored under the name `a(`, although `(` is not an RFC 7230 token
character, so the claimed invariant that every stored name matches the
RFC 7230 token grammar fails. -/
theorem c8_paren_name_stored :
    (hdrsParse hEmpty ("a(: v\r\n\r\n").data).1 = [("a(", "v")] ∧
    rfc7230TokenChar '(' = false ∧ '(' ∈ ("a(").data := by
  exact ⟨rfl, rfl, by decide⟩

/-- Claim C4: at every node - hence at every depth of the walk - a static
child whose token equals the segment is preferred over the parameter
child, whatever the order of the children list (and so whatever the
registration order); when the parameter child is used, the walk records
`path_params[capture_name] = segment` before descending. -/
theorem c4_static_beats_param (H : Type) (n : RNode H) (tok : String) :
    (∀ c, getStaticChild n tok = some c → matchChild n tok = some (c, false)) ∧
    (getStaticChild n tok = none →
      ∀ c, getParamChild n = some c → matchChild n tok = some (c, true)) ∧
    (∀ (ts : List String) (pp : List (String × String)) (c : RNode H),
      matchChild n tok = some (c, true) →
      walk n (tok :: ts) pp = walk c ts (assocPut pp c.token tok)) := by
  refine ⟨fun c hc => ?_, fun hns c hc => ?_, fun ts pp c hc => ?_⟩
  · simp [matchChild, hc]
  · simp [matchChild, hns, hc]
  · simp [walk, hc]

/-- Witness for c4_static_beats_param on the sample trie whose parameter
child was registered before its static child. -/
theorem c4_static_beats_param_witness :
    matchChild sampleRoot "me" = some (sampleStaticNode, false) ∧
    matchChild sampleRoot "you" = some (sampleParamNode, true) ∧
    walk sampleRoot ["you"] [] =
      walk sampleParamNode [] (assocPut [] sampleParamNode.token "you") :=
  ⟨(c4_static_beats_param Nat sampleRoot "me").1 sampleStaticNode rfl,
   (c4_static_beats_param Nat sampleRoot "you").2.1 rfl sampleParamNode rfl,
   (c4_static_beats_param Nat sampleRoot "you").2.2 [] [] sampleParamNode
     ((c4_static_beats_param Nat sampleRoot "you").2.1 rfl sampleParamNode rfl)⟩

/-- Claim C3: `GetHandler` returns the registered handler when the walk
reaches a node holding one for the request's method; the
method-not-allowed handler when that node has none for the method but
some method has one; the not-found handler when the node has none at
all, when the walk reaches no node, when the target does not tokenize,
and when the method is outside the recognized vocabulary. -/
theorem c3_get_handler_dispatch (H : Type) (root : RNode H) (nfH mnaH : H)
    (methodStr target : String) (pp : List (String × String)) :
    (getMethod methodStr = none →
      getHandlerM root nfH mnaH methodStr target pp = (nfH, pp)) ∧
    (∀ m, getMethod methodStr = some m →
      (∀ e, getTokens target = .error e →
        getHandlerM root nfH mnaH methodStr target pp = (nfH, pp)) ∧
      (∀ toks, getTokens target = .ok toks →
        (∀ pp', walk root toks pp = (none, pp') →
          getHandlerM root nfH mnaH methodStr target pp = (nfH, pp')) ∧
        (∀ nd pp', walk root toks pp = (some nd, pp') →
          (∀ hdl, nd.handlers m = some hdl →
            getHandlerM root nfH mnaH methodStr target pp = (hdl, pp')) ∧
          (nd.handlers m = none → anyHandler nd = true →
            getHandlerM root nfH mnaH methodStr target pp = (mnaH, pp')) ∧
          (nd.handlers m = none → anyHandler nd = false →
            getHandlerM root nfH mnaH methodStr target pp = (nfH, pp'))))) := by
  constructor
  · intro hm
    simp [getHandlerM, hm]
  · intro m hm
    constructor
    · intro e he
      simp [getHandlerM, hm, he]
    · intro toks ht
      constructor
      · intro pp' hw
        simp [getHandlerM, hm, ht, hw]
      · intro nd pp' hw
        refine ⟨fun hdl hh => ?_, fun hh ha => ?_, fun hh ha => ?_⟩
        · simp [getHandlerM, hm, ht, hw, hh]
        · simp [getHandlerM, hm, ht, hw, hh, ha]
        · simp [getHandlerM, hm, ht, hw, hh, ha]

/-- Cutting at the first occurrence of a byte leaves a left part free of
that byte. -/
theorem cutFirst_not_mem {c : Char} : ∀ {l a b : List Char},
    cutFirst c l = some (a, b) → c ∉ a := by
  intro l
  induction l with
  | nil => intro a b h; exact absurd h (by simp [cutFirst])
  | cons x xs ih =>
    intro a b h
    by_cases hx : x = c
    · rw [show cutFirst c (x :: xs) = some ([], xs) from by simp [cutFirst, hx]] at h
      simp only [Option.some.injEq, Prod.mk.injEq] at h
      obtain ⟨ha, _⟩ := h
      subst ha
      simp
    · rw [show cutFirst c (x :: xs) = (cutFirst c xs).map (fun p => (x :: p.1, p.2)) from
        by simp [cutFirst, hx]] at h
      rcases hcut : cutFirst c xs with _ | ⟨a', b'⟩ <;> rw [hcut] at h
      · simp at h
      · simp only [Option.map_some', Option.some.injEq, Prod.mk.injEq] at h
        obtain ⟨ha, _⟩ := h
        subst ha
        intro hmem
        rcases List.mem_cons.mp hmem with h' | h'
        · exact hx h'.symm
        · exact ih hcut h'

/-- An unsigned digit run parses to a nonnegative value. -/
theorem atoiDigits_one_nonneg {ds : List Char} {v : Int}
    (h : atoiDigits 1 ds = some v) : 0 ≤ v := by
  unfold atoiDigits at h
  split_ifs at h with h1 h2 h3
  simp only [Option.some.injEq] at h
  omega

/-- A decimal string without a minus sign parses to a nonnegative
value. -/
theorem atoi_nonneg {l : List Char} {v : Int} (hm : '-' ∉ l)
    (hv : atoi l = some v) : 0 ≤ v := by
  unfold atoi at hv
  split at hv
  · simp at hv
  · exact atoiDigits_one_nonneg hv
  · next t => exact absurd (List.mem_cons_self '-' t) hm
  · exact atoiDigits_one_nonneg hv

/-- The start of an accepted Range header is nonnegative: the part before
the first dash cannot carry a minus sign. -/
theorem parseRange_start_nonneg {s : String} {st en : Int} {enP : Bool}
    (hp : parseRange s = some (st, en, enP)) : 0 ≤ st := by
  unfold parseRange at hp
  split_ifs at hp with hpre
  rcases hcut : cutFirst '-' (s.data.drop 6) with _ | ⟨p0, p1⟩ <;> simp only [hcut] at hp
  · exact Option.noConfusion hp
  · by_cases h0 : p0 = []
    · rw [if_pos h0] at hp
      exact Option.noConfusion hp
    · rw [if_neg h0] at hp
      rcases ha : atoi p0 with _ | v <;> simp only [ha] at hp
      · exact Option.noConfusion hp
      · have hv : 0 ≤ v := atoi_nonneg (cutFirst_not_mem hcut) ha
        by_cases h1 : p1 = []
        · rw [if_pos h1] at hp
          simp only [Option.some.injEq, Prod.mk.injEq] at hp
          omega
        · rw [if_neg h1] at hp
          rcases hb : atoi p1 with _ | w <;> simp only [hb] at hp
          · exact Option.noConfusion hp
          · simp only [Option.some.injEq, Prod.mk.injEq] at hp
            omega

/-- A satisfiable range loads successfully: the body is the slice from
`start` to the clamped end. -/
theorem loadRange_ok (f : List Char) (st en : Int) (enP : Bool)
    (h0 : 0 < (f.length : Int)) (hst0 : 0 ≤ st) (hst : st < (f.length : Int))
    (hen : enP = true → st ≤ en) :
    loadRange f (f.length : Int) st en enP =
      .ok ((f.drop st.toNat).take
          (((if enP = true then min en ((f.length : Int) - 1) else (f.length : Int) - 1) - st + 1).toNat),
        if enP = true then min en ((f.length : Int) - 1) else (f.length : Int) - 1) := by
  have hue : (if ¬enP = true then (f.length : Int) - 1
      else if en ≥ (f.length : Int) then (f.length : Int) - 1 else en) =
      (if enP = true then min en ((f.length : Int) - 1) else (f.length : Int) - 1) := by
    cases enP
    · simp
    · simp
      omega
  have hub : (if enP = true then min en ((f.length : Int) - 1) else (f.length : Int) - 1) ≤
      (f.length : Int) - 1 := by
    cases enP <;> simp
  have hlb : st ≤ (if enP = true then min en ((f.length : Int) - 1) else (f.length : Int) - 1) := by
    cases enP <;> simp
    · omega
    · exact ⟨hen rfl, by omega⟩
  unfold loadRange
  rw [if_neg (by omega), if_neg (by omega), if_neg (by rintro ⟨hep, hlt⟩; have := hen hep; omega),
    hue, if_neg (by omega), if_neg (by omega)]

/-- An unsatisfiable range fails with one of the two 416-mapped
errors. -/
theorem loadRange_err416 (f : List Char) (cs st en : Int) (enP : Bool)
    (h : st ≥ cs ∨ (enP = true ∧ en < st) ∨ cs ≤ 0) :
    loadRange f cs st en enP = .error .rangeOutOfBounds ∨
    loadRange f cs st en enP = .error .rangeEndLtStart := by
  unfold loadRange
  by_cases h1 : cs ≤ 0
  · rw [if_pos h1]
    exact Or.inl rfl
  · rw [if_neg h1]
    by_cases h2 : st ≥ cs
    · rw [if_pos h2]
      exact Or.inl rfl
    · rw [if_neg h2]
      have h3 : enP = true ∧ en < st := by
        rcases h with h | h | h
        · exact absurd h h2
        · exact h
        · exact absurd h h1
      rw [if_pos h3]
      exact Or.inr rfl

/-- Claim C6: for a grammatical Range with `start < total_size`,
`total_size > 0` (and `start <= end` when an end is given), the writer
hands `WriteResponse` a 206 whose body is exactly the
`(used_end - start + 1)` bytes of the source from `start`, where
`used_end` is the provided end clamped to `total_size - 1` (or
`total_size - 1` when open-ended), with `Content-Range`
`bytes <start>-<used_end>/<total>` and `Content-Length` the byte count;
and whenever `start >= total_size`, or `end < start` with both provided,
or `total_size <= 0`, it hands over a 416 with `Content-Range`
`bytes */<total>` and body `invalid range provided`. -/
theorem c6_partial_content (f : List Char) (reqH : Headers) (rangeStr ct : String)
    (st en cs : Int) (enP : Bool)
    (hr : hGet reqH "Range" = some rangeStr)
    (hp : parseRange rangeStr = some (st, en, enP)) :
    (cs = (f.length : Int) → 0 < cs → st < cs → (enP = true → st ≤ en) →
      writePartialContent f cs ct reqH =
        (206,
         [("content-length", toString ((f.drop st.toNat).take
            (((if enP = true then min en (cs - 1) else cs - 1) - st + 1).toNat)).length),
          ("connection", "close"), ("content-type", ct), ("accept-ranges", "bytes"),
          ("content-range", "bytes " ++ toString st ++ "-" ++
            toString (if enP = true then min en (cs - 1) else cs - 1) ++ "/" ++ toString cs)],
         (f.drop st.toNat).take
           (((if enP = true then min en (cs - 1) else cs - 1) - st + 1).toNat)) ∧
      ((f.drop st.toNat).take
          (((if enP = true then min en (cs - 1) else cs - 1) - st + 1).toNat)).length =
        ((if enP = true then min en (cs - 1) else cs - 1) - st + 1).toNat) ∧
    (st ≥ cs ∨ (enP = true ∧ en < st) ∨ cs ≤ 0 →
      writePartialContent f cs ct reqH =
        (416,
         [("content-length", "22"), ("connection", "close"), ("content-type", "text/plain"),
          ("accept-ranges", "bytes"), ("content-range", "bytes */" ++ toString cs)],
         ("invalid range provided").data)) := by
  constructor
  · intro hcs h1 h2 h3
    subst hcs
    have hst0 : 0 ≤ st := parseRange_start_nonneg hp
    have hload := loadRange_ok f st en enP h1 hst0 h2 h3
    constructor
    · simp only [writePartialContent, hr, hp, hload]
      rfl
    · have hub : (if enP = true then min en ((f.length : Int) - 1) else (f.length : Int) - 1) ≤
          (f.length : Int) - 1 := by
        cases enP <;> simp
      have hlb : st ≤ (if enP = true then min en ((f.length : Int) - 1) else (f.length : Int) - 1) := by
        cases enP <;> simp
        · omega
        · exact ⟨h3 rfl, by omega⟩
      simp only [List.length_take, List.length_drop]
      omega
  · intro hd
    rcases loadRange_err416 f cs st en enP hd with he | he <;>
      simp only [writePartialContent, hr, hp, he] <;> rfl

/-- Witness for c6_partial_content: a concrete 206 for bytes 2-5 of a
ten-byte source and a concrete 416 for the inverted range 7-3. -/
theorem c6_partial_content_witness :
    writePartialContent ("abcdefghij").data 10 "video/mp4" (hSet hEmpty "Range" "bytes=2-5") =
      (206,
       [("content-length", "4"), ("connection", "close"), ("content-type", "video/mp4"),
        ("accept-ranges", "bytes"), ("content-range", "bytes 2-5/10")],
      ("cdef").data) ∧
    writePartialContent ("abcdefghij").data 10 "video/mp4" (hSet hEmpty "Range" "bytes=7-3") =
      (416,
       [("content-length", "22"), ("connection", "close"), ("content-type", "text/plain"),
        ("accept-ranges", "bytes"), ("content-range", "bytes */10")],
      ("invalid range provided").data) :=
  ⟨(c6_partial_content ("abcdefghij").data (hSet hEmpty "Range" "bytes=2-5") "bytes=2-5"
      "video/mp4" 2 5 10 true rfl rfl).1 (by decide) (by decide) (by decide)
      (fun _ => by decide) |>.1,
   (c6_partial_content ("abcdefghij").data (hSet hEmpty "Range" "bytes=7-3") "bytes=7-3"
      "video/mp4" 7 3 10 true rfl rfl).2 (Or.inr (Or.inl ⟨rfl, by decide⟩))⟩

/-- Witness for c3_get_handler_dispatch on the one-route trie `GET /a`:
the registered handler for GET /a, 405 for POST /a, 404 for GET on an
unknown path and 404 for an unrecognized method. -/
theorem c3_get_handler_dispatch_witness :
    getHandlerM oneRouteTrie 0 1 "GET" "/a" [] = (2, []) ∧
    getHandlerM oneRouteTrie 0 1 "POST" "/a" [] = (1, []) ∧
    getHandlerM oneRouteTrie 0 1 "GET" "/zzz" [] = (0, []) ∧
    getHandlerM oneRouteTrie 0 1 "BREW" "/a" [] = (0, []) :=
  ⟨((((c3_get_handler_dispatch Nat oneRouteTrie 0 1 "GET" "/a" []).2
      Method.mGET rfl).2 ["a"] rfl).2 _ [] rfl).1 2 rfl,
   (((((c3_get_handler_dispatch Nat oneRouteTrie 0 1 "POST" "/a" []).2
      Method.mPOST rfl).2 ["a"] rfl).2 _ [] rfl).2.1 rfl rfl),
   ((((c3_get_handler_dispatch Nat oneRouteTrie 0 1 "GET" "/zzz" []).2
      Method.mGET rfl).2 ["zzz"] rfl).1 [] rfl),
   (c3_get_handler_dispatch Nat oneRouteTrie 0 1 "BREW" "/a" []).1 rfl⟩

end TcpHttp
